import Mathlib

/-!
Verification of the wallerstedtlive scripts.

The repository consists of two Python scripts:

* `Pianothon.py` — a pygame donation-goal renderer running in one process,
  fed by a TikTok gift handler running in another process through shared
  `multiprocessing.Manager` values;
* `scripts/tiktoklive_bridge.py` — a bridge that connects to a TikTok live
  room, aggregates viewer/like/enter/gift signals in a `LiveCaptureState`,
  and prints line-delimited JSON status records.

This file gives a shallow embedding of the data model and the operations of
those scripts and proves (or refutes) the specification claims about them.
Machine integers are modelled as `Int` (Python integers are unbounded);
Python floats are modelled as exact rationals together with a non-finite
marker; code that can raise an exception is modelled in `Except Unit`.
-/

/-- Model of a Python `float`: either a finite value (every finite IEEE
double is an exact rational) or a non-finite one (`inf`, `-inf` or `nan`,
collapsed into one constructor because the embedded code treats all three
identically: `int()` raises on each of them). -/
inductive PyFloat where
  | finite (q : ℚ)
  | nonfinite
deriving DecidableEq

mutual
/-- Model of the untyped Python values that flow through the bridge's
value-extraction helpers: `None`, `bool`, `int`, `float`, `str`, `dict`
(with string keys, in insertion order) and `list`. -/
inductive PyVal where
  | vNone
  | vBool (b : Bool)
  | vInt (n : Int)
  | vFloat (f : PyFloat)
  | vStr (s : String)
  | vDict (entries : PyEntries)
  | vList (items : PyItems)
/-- The key/value entries of a Python `dict`, in insertion order. -/
inductive PyEntries where
  | nil
  | cons (key : String) (value : PyVal) (rest : PyEntries)
/-- The items of a Python `list`. -/
inductive PyItems where
  | nil
  | cons (head : PyVal) (tail : PyItems)
end

/-- Truncation toward zero of a rational: the value of Python's `int()`
applied to a finite float. `Int.tdiv` rounds toward zero, matching CPython. -/
def ratTruncZ (q : ℚ) : Int :=
  Int.tdiv q.num (q.den : Int)

/-- `to_int` from `scripts/tiktoklive_bridge.py`.

`pf` models the Python builtin composition `int(float(s))` on strings: it
returns `some q` exactly when `float(s)` succeeds and yields a finite value
`q` (so `int` then truncates it), and `none` when `float(s)` raises or
yields `inf`/`-inf`/`nan` (in which case `int` raises inside the `try`
block and the function falls back to the default).  The `float` branch of
the source has no `try`: `int()` applied to a non-finite float raises
`OverflowError`/`ValueError`, modelled as `Except.error ()`. -/
def to_int (pf : String → Option ℚ) : PyVal → Int → Except Unit Int
  | .vBool b, _ => .ok (if b then 1 else 0)
  | .vInt n, _ => .ok n
  | .vFloat (.finite q), _ => .ok (ratTruncZ q)
  | .vFloat .nonfinite, _ => .error ()
  | .vStr s, d => .ok (match pf s with | some q => ratTruncZ q | none => d)
  | .vNone, d => .ok d
  | .vDict _, d => .ok d
  | .vList _, d => .ok d

/-- The integer `to_int(v, 0)` evaluates to when it does not raise
(and `0` in the raising case, which the theorems exclude by hypothesis). -/
def to_int0 (pf : String → Option ℚ) (v : PyVal) : Int :=
  match to_int pf v 0 with
  | .ok n => n
  | .error _ => 0

/-- The values on which `to_int` raises: non-finite floats. -/
def isBadFloat : PyVal → Bool
  | .vFloat .nonfinite => true
  | _ => false

/-- Python's `str.strip` whitespace set restricted to ASCII
(TAB, LF, VT, FF, CR, SPACE); the platform payloads handled by the
bridge are ASCII-escaped JSON, so the Unicode spaces never occur. -/
def pyWhitespace (c : Char) : Bool :=
  c.toNat = 9 || c.toNat = 10 || c.toNat = 11 || c.toNat = 12 || c.toNat = 13 || c.toNat = 32

/-- Python `str.strip()`: drop leading and trailing whitespace. -/
def pystrip (s : String) : String :=
  String.mk (((s.toList.dropWhile pyWhitespace).reverse.dropWhile pyWhitespace).reverse)

/-- The per-entry test
`if key in keys and isinstance(value, str) and value.strip(): return value.strip()`
of `find_first_string`'s `dict` loop. -/
def ffsHit (keys : List String) (k : String) (v : PyVal) : Option String :=
  if keys.contains k then
    match v with
    | .vStr s => if pystrip s = "" then none else some (pystrip s)
    | _ => none
  else none

mutual
/-- `find_first_string` from `scripts/tiktoklive_bridge.py`: depth-first
scan of a nested structure for the first non-blank string bound to one of
`keys`.  The Python `set` of keys is modelled as a list with membership. -/
def find_first_string (keys : List String) : PyVal → Option String
  | .vDict es => ffsEntries keys es
  | .vList is => ffsItems keys is
  | _ => none
/-- The `dict` loop of `find_first_string`: per entry, the `ffsHit` test,
then recursion into the value with the truthiness test `if found:`
(which rejects both `None` and the empty string). -/
def ffsEntries (keys : List String) : PyEntries → Option String
  | .nil => none
  | .cons k v rest =>
      match ffsHit keys k v with
      | some s => some s
      | none =>
          match find_first_string keys v with
          | some found => if found = "" then ffsEntries keys rest else some found
          | none => ffsEntries keys rest
/-- The `list` loop of `find_first_string`. -/
def ffsItems (keys : List String) : PyItems → Option String
  | .nil => none
  | .cons h t =>
      match find_first_string keys h with
      | some found => if found = "" then ffsItems keys t else some found
      | none => ffsItems keys t
end

mutual
/-- `find_max_int` from `scripts/tiktoklive_bridge.py`: the maximum of `0`
and of `to_int(value, 0)` over the values bound to one of `keys`, at any
depth.  The loop accumulator `best` (initially `0`) is rendered as a fold
of `max`; an exception raised by `to_int` propagates. -/
def find_max_int (pf : String → Option ℚ) (keys : List String) : PyVal → Except Unit Int
  | .vDict es => fmiEntries pf keys es
  | .vList is => fmiItems pf keys is
  | _ => .ok 0
/-- The `dict` loop of `find_max_int`: for each entry, first
`best = max(best, to_int(value, 0))` when the key matches, then
`best = max(best, find_max_int(value, keys))`. -/
def fmiEntries (pf : String → Option ℚ) (keys : List String) : PyEntries → Except Unit Int
  | .nil => .ok 0
  | .cons k v rest =>
      match (if keys.contains k then to_int pf v 0 else .ok 0) with
      | .error e => .error e
      | .ok hit =>
          match find_max_int pf keys v with
          | .error e => .error e
          | .ok sub =>
              match fmiEntries pf keys rest with
              | .error e => .error e
              | .ok acc => .ok (max (max hit sub) acc)
/-- The `list` loop of `find_max_int`. -/
def fmiItems (pf : String → Option ℚ) (keys : List String) : PyItems → Except Unit Int
  | .nil => .ok 0
  | .cons h t =>
      match find_max_int pf keys h with
      | .error e => .error e
      | .ok sub =>
          match fmiItems pf keys t with
          | .error e => .error e
          | .ok acc => .ok (max sub acc)
end

/-- The current-viewer key set of `parse_current_viewers_from_room_info`. -/
def viewerKeys : List String :=
  ["user_count", "watch_user_count", "viewer_count", "viewerCount", "room_user_count"]

/-- The cumulative-enter key set of `parse_total_enters_from_room_info`. -/
def enterKeys : List String :=
  ["total_user", "totalUser", "enter_count", "enterCount", "total_enter_count"]

/-- The like-count key set used on `room_info` in `bootstrap_client`. -/
def likeKeys : List String :=
  ["like_count", "likeCount", "m_popularity", "total_like", "likes"]

/-- The title key set used on `room_info` in `bootstrap_client`. -/
def titleKeys : List String :=
  ["title", "room_title", "live_title"]

/-- `parse_current_viewers_from_room_info`: `max(0, find_max_int(...))`. -/
def parse_current_viewers_from_room_info (pf : String → Option ℚ) (room_info : PyVal) :
    Except Unit Int :=
  (find_max_int pf viewerKeys room_info).map (fun n => max 0 n)

/-- `parse_total_enters_from_room_info`: `max(0, find_max_int(...))`. -/
def parse_total_enters_from_room_info (pf : String → Option ℚ) (room_info : PyVal) :
    Except Unit Int :=
  (find_max_int pf enterKeys room_info).map (fun n => max 0 n)

/-! ### Specification-side definitions for the recursive key-scan (C1) -/

mutual
/-- From the spec's words: every value bound to a key in `keys` at any
nesting depth of `data`, in the depth-first order of the structure.
(Specification-side definition, to be compared with `find_max_int`.) -/
def keyBoundValues (keys : List String) : PyVal → List PyVal
  | .vDict es => entriesBoundValues keys es
  | .vList is => itemsBoundValues keys is
  | _ => []
/-- The values bound to a key in `keys` inside the entries of a `dict`. -/
def entriesBoundValues (keys : List String) : PyEntries → List PyVal
  | .nil => []
  | .cons k v rest =>
      (if keys.contains k then [v] else []) ++ keyBoundValues keys v ++ entriesBoundValues keys rest
/-- The values bound to a key in `keys` inside the items of a `list`. -/
def itemsBoundValues (keys : List String) : PyItems → List PyVal
  | .nil => []
  | .cons h t => keyBoundValues keys h ++ itemsBoundValues keys t
end

/-- The maximum of `0` and of `to_int(v, 0)` over a list of values
(specification-side definition, following the spec's words). -/
def maxOverKeyVals (pf : String → Option ℚ) : List PyVal → Int
  | [] => 0
  | v :: vs => max (to_int0 pf v) (maxOverKeyVals pf vs)

theorem maxOverKeyVals_nonneg (pf : String → Option ℚ) (l : List PyVal) :
    0 ≤ maxOverKeyVals pf l := by
  induction l with
  | nil => simp [maxOverKeyVals]
  | cons v vs ih => simp only [maxOverKeyVals]; omega

theorem maxOverKeyVals_append (pf : String → Option ℚ) (l₁ l₂ : List PyVal) :
    maxOverKeyVals pf (l₁ ++ l₂) = max (maxOverKeyVals pf l₁) (maxOverKeyVals pf l₂) := by
  induction l₁ with
  | nil =>
      have h := maxOverKeyVals_nonneg pf l₂
      simp only [List.nil_append, maxOverKeyVals]
      omega
  | cons v vs ih =>
      show max (to_int0 pf v) (maxOverKeyVals pf (vs ++ l₂)) =
        max (max (to_int0 pf v) (maxOverKeyVals pf vs)) (maxOverKeyVals pf l₂)
      rw [ih]; omega

theorem to_int_ok_of_not_bad (pf : String → Option ℚ) (v : PyVal)
    (h : isBadFloat v = false) : to_int pf v 0 = .ok (to_int0 pf v) := by
  cases v with
  | vFloat f => cases f <;> simp_all [isBadFloat, to_int, to_int0]
  | _ => simp [to_int, to_int0]

mutual
theorem fmiValSpec (pf : String → Option ℚ) (keys : List String) :
    (data : PyVal) → (∀ v ∈ keyBoundValues keys data, isBadFloat v = false) →
    find_max_int pf keys data = .ok (maxOverKeyVals pf (keyBoundValues keys data))
  | .vNone, _ => rfl
  | .vBool _, _ => rfl
  | .vInt _, _ => rfl
  | .vFloat _, _ => rfl
  | .vStr _, _ => rfl
  | .vDict es, h => fmiEntriesSpec pf keys es h
  | .vList is, h => fmiItemsSpec pf keys is h
theorem fmiEntriesSpec (pf : String → Option ℚ) (keys : List String) :
    (es : PyEntries) → (∀ v ∈ entriesBoundValues keys es, isBadFloat v = false) →
    fmiEntries pf keys es = .ok (maxOverKeyVals pf (entriesBoundValues keys es))
  | .nil, _ => rfl
  | .cons k v rest, h => by
      cases hk : keys.contains k with
      | true =>
          have hk' : k ∈ keys := by simpa using hk
          have hEq : entriesBoundValues keys (.cons k v rest) =
              [v] ++ (keyBoundValues keys v ++ entriesBoundValues keys rest) := by
            simp [entriesBoundValues, hk']
          have h' : ∀ x ∈ [v] ++ (keyBoundValues keys v ++ entriesBoundValues keys rest),
              isBadFloat x = false := hEq ▸ h
          have hvbad : isBadFloat v = false := h' v (by simp)
          have hv : ∀ x ∈ keyBoundValues keys v, isBadFloat x = false :=
            fun x hx => h' x (by simp [hx])
          have hrest : ∀ x ∈ entriesBoundValues keys rest, isBadFloat x = false :=
            fun x hx => h' x (by simp [hx])
          have e1 := to_int_ok_of_not_bad pf v hvbad
          have e2 := fmiValSpec pf keys v hv
          have e3 := fmiEntriesSpec pf keys rest hrest
          have n1 := maxOverKeyVals_nonneg pf (keyBoundValues keys v)
          have n2 := maxOverKeyVals_nonneg pf (entriesBoundValues keys rest)
          have hfmi : fmiEntries pf keys (.cons k v rest) =
              .ok (max (max (to_int0 pf v) (maxOverKeyVals pf (keyBoundValues keys v)))
                (maxOverKeyVals pf (entriesBoundValues keys rest))) := by
            simp only [fmiEntries]
            rw [if_pos hk, e1, e2, e3]
          rw [hfmi, hEq, maxOverKeyVals_append, maxOverKeyVals_append]
          simp only [maxOverKeyVals, Except.ok.injEq]
          omega
      | false =>
          have hk' : k ∉ keys := by simpa using hk
          have hEq : entriesBoundValues keys (.cons k v rest) =
              keyBoundValues keys v ++ entriesBoundValues keys rest := by
            simp [entriesBoundValues, hk']
          have h' : ∀ x ∈ keyBoundValues keys v ++ entriesBoundValues keys rest,
              isBadFloat x = false := hEq ▸ h
          have hv : ∀ x ∈ keyBoundValues keys v, isBadFloat x = false :=
            fun x hx => h' x (by simp [hx])
          have hrest : ∀ x ∈ entriesBoundValues keys rest, isBadFloat x = false :=
            fun x hx => h' x (by simp [hx])
          have e2 := fmiValSpec pf keys v hv
          have e3 := fmiEntriesSpec pf keys rest hrest
          have n1 := maxOverKeyVals_nonneg pf (keyBoundValues keys v)
          have n2 := maxOverKeyVals_nonneg pf (entriesBoundValues keys rest)
          have hfmi : fmiEntries pf keys (.cons k v rest) =
              .ok (max (max 0 (maxOverKeyVals pf (keyBoundValues keys v)))
                (maxOverKeyVals pf (entriesBoundValues keys rest))) := by
            simp only [fmiEntries]
            rw [if_neg (by simpa using hk'), e2, e3]
          rw [hfmi, hEq, maxOverKeyVals_append]
          simp only [Except.ok.injEq]
          omega
theorem fmiItemsSpec (pf : String → Option ℚ) (keys : List String) :
    (items : PyItems) → (∀ v ∈ itemsBoundValues keys items, isBadFloat v = false) →
    fmiItems pf keys items = .ok (maxOverKeyVals pf (itemsBoundValues keys items))
  | .nil, _ => rfl
  | .cons hd t, h => by
      have hv : ∀ x ∈ keyBoundValues keys hd, isBadFloat x = false := by
        intro x hx
        apply h
        simp [itemsBoundValues, hx]
      have ht : ∀ x ∈ itemsBoundValues keys t, isBadFloat x = false := by
        intro x hx
        apply h
        simp [itemsBoundValues, hx]
      have e2 := fmiValSpec pf keys hd hv
      have e3 := fmiItemsSpec pf keys t ht
      simp only [fmiItems, e2, e3, itemsBoundValues, maxOverKeyVals_append, Except.ok.injEq]
end

theorem ffsHit_ne_empty (keys : List String) (k : String) (v : PyVal) :
    ffsHit keys k v ≠ some "" := by
  unfold ffsHit
  by_cases hk : keys.contains k = true
  · rw [if_pos hk]
    cases v <;> simp
  · rw [if_neg hk]
    simp

mutual
theorem ffs_ne_empty (keys : List String) :
    (data : PyVal) → find_first_string keys data ≠ some ""
  | .vNone => by simp [find_first_string]
  | .vBool _ => by simp [find_first_string]
  | .vInt _ => by simp [find_first_string]
  | .vFloat _ => by simp [find_first_string]
  | .vStr _ => by simp [find_first_string]
  | .vDict es => ffsEntries_ne_empty keys es
  | .vList is => ffsItems_ne_empty keys is
theorem ffsEntries_ne_empty (keys : List String) :
    (es : PyEntries) → ffsEntries keys es ≠ some ""
  | .nil => by simp [ffsEntries]
  | .cons k v rest => by
      have ih := ffsEntries_ne_empty keys rest
      have hh := ffsHit_ne_empty keys k v
      simp only [ffsEntries]
      split
      · simp_all
      · split
        · split
          · exact ih
          · simp_all
        · exact ih
theorem ffsItems_ne_empty (keys : List String) :
    (items : PyItems) → ffsItems keys items ≠ some ""
  | .nil => by simp [ffsItems]
  | .cons hd t => by
      have ih := ffsItems_ne_empty keys t
      simp only [ffsItems]
      split
      · split
        · exact ih
        · simp_all
      · exact ih
end

/-! ### The JSON line protocol of the bridge (`emit_line`, C4)

`json.dumps(payload, ensure_ascii=True)` is modelled character by
character: the output is a list of characters; `print(..., flush=True)`
appends a single newline and hands the line to standard output. -/

mutual
/-- The JSON values the bridge serializes: `None`, `bool`, `int`, `str`,
`list` and `dict` payloads (the emitted records contain no floats). -/
inductive Json where
  | jnull
  | jbool (b : Bool)
  | jint (n : Int)
  | jstr (s : String)
  | jarr (items : JsonItems)
  | jobj (entries : JsonEntries)
/-- Items of a JSON array. -/
inductive JsonItems where
  | nil
  | cons (head : Json) (tail : JsonItems)
/-- Entries of a JSON object, in insertion order (string keys). -/
inductive JsonEntries where
  | nil
  | cons (key : String) (value : Json) (tail : JsonEntries)
end

/-- Lower-case hexadecimal digit, as produced by CPython's `\uXXXX`
escapes (`0`–`9`, `a`–`f`). -/
def hexDigit (n : Nat) : Char :=
  Char.ofNat (if n < 10 then 48 + n else 87 + n)

/-- Four-digit lower-case hexadecimal rendering of a code unit. -/
def hex4 (n : Nat) : List Char :=
  [hexDigit (n / 4096 % 16), hexDigit (n / 256 % 16), hexDigit (n / 16 % 16), hexDigit (n % 16)]

/-- CPython's `py_encode_basestring_ascii` escaping of one character:
`"` and `\` get a backslash escape, the control characters BS, TAB, LF,
FF, CR get their short escapes, the remaining printable ASCII range
(`0x20`–`0x7e`) passes through, and everything else becomes `\uXXXX`
(a surrogate pair for characters beyond the basic plane). -/
def escChar (c : Char) : List Char :=
  if c = '\"' then ['\\', '\"']
  else if c = '\\' then ['\\', '\\']
  else if c.toNat = 8 then ['\\', 'b']
  else if c.toNat = 9 then ['\\', 't']
  else if c.toNat = 10 then ['\\', 'n']
  else if c.toNat = 12 then ['\\', 'f']
  else if c.toNat = 13 then ['\\', 'r']
  else if 32 ≤ c.toNat ∧ c.toNat ≤ 126 then [c]
  else if c.toNat < 65536 then '\\' :: 'u' :: hex4 c.toNat
  else
    ('\\' :: 'u' :: hex4 (55296 + (c.toNat - 65536) / 1024)) ++
      ('\\' :: 'u' :: hex4 (56320 + (c.toNat - 65536) % 1024))

/-- Escape every character of a string body. -/
def escList : List Char → List Char
  | [] => []
  | c :: cs => escChar c ++ escList cs

/-- A JSON string literal with `ensure_ascii=True`: quote, escaped body,
quote. -/
def py_encode_basestring_ascii (s : String) : List Char :=
  '\"' :: (escList s.toList ++ ['\"'])

/-- Decimal digits of a natural number, most significant first; the
first argument is fuel (`n` itself suffices since `n / 10 < n`). -/
def natDecimalAux : Nat → Nat → List Char
  | 0, _ => []
  | fuel + 1, n =>
      if n = 0 then []
      else natDecimalAux fuel (n / 10) ++ [Char.ofNat (48 + n % 10)]

/-- Decimal rendering of a natural number, as CPython prints it. -/
def natDecimal (n : Nat) : List Char :=
  if n = 0 then ['0'] else natDecimalAux n n

/-- Decimal rendering of a Python integer (`-` sign for negatives). -/
def intDecimal (n : Int) : List Char :=
  if n < 0 then '-' :: natDecimal (-n).toNat else natDecimal n.toNat

mutual
/-- `json.dumps(payload, ensure_ascii=True)`: the default separators of
a compact-free dump are `", "` between members and `": "` after keys. -/
def dumps : Json → List Char
  | .jnull => "null".toList
  | .jbool true => "true".toList
  | .jbool false => "false".toList
  | .jint n => intDecimal n
  | .jstr s => py_encode_basestring_ascii s
  | .jarr items => '[' :: (dumpsItems items ++ [']'])
  | .jobj entries => "\x7b".toList ++ dumpsEntries entries ++ "\x7d".toList
/-- Array items joined by `", "`. -/
def dumpsItems : JsonItems → List Char
  | .nil => []
  | .cons h .nil => dumps h
  | .cons h (.cons h' t) => dumps h ++ (',' :: ' ' :: dumpsItems (.cons h' t))
/-- Object entries `key: value` joined by `", "`. -/
def dumpsEntries : JsonEntries → List Char
  | .nil => []
  | .cons k v .nil => py_encode_basestring_ascii k ++ (':' :: ' ' :: dumps v)
  | .cons k v (.cons k' v' t) =>
      py_encode_basestring_ascii k ++ (':' :: ' ' :: dumps v) ++
        (',' :: ' ' :: dumpsEntries (.cons k' v' t))
end

/-- `emit_line` from `scripts/tiktoklive_bridge.py`:
`print(json.dumps(payload, ensure_ascii=True), flush=True)`.  The
characters handed to standard output (and immediately flushed) are the
serialization followed by `print`'s single newline. -/
def emit_line (payload : Json) : List Char :=
  dumps payload ++ ['\n']

/-- Lookup of a key in a JSON object's entries (first match). -/
def jlookupEntries : JsonEntries → String → Option Json
  | .nil, _ => none
  | .cons k v t, key => if k = key then some v else jlookupEntries t key

/-- Lookup of a key in a JSON value (objects only). -/
def jlookup : Json → String → Option Json
  | .jobj es, key => jlookupEntries es key
  | _, _ => none

/-! ### ASCII range of the serialized output -/

theorem hexDigit_range : ∀ n, n < 16 → 32 ≤ (hexDigit n).toNat ∧ (hexDigit n).toNat ≤ 126 := by
  decide

theorem hex4_range (n : Nat) : ∀ c ∈ hex4 n, 32 ≤ c.toNat ∧ c.toNat ≤ 126 := by
  intro c hc
  simp only [hex4, List.mem_cons, List.not_mem_nil, or_false] at hc
  rcases hc with h | h | h | h <;> subst h <;>
    exact hexDigit_range _ (Nat.mod_lt _ (by omega))

theorem escChar_range (c : Char) : ∀ x ∈ escChar c, 32 ≤ x.toNat ∧ x.toNat ≤ 126 := by
  intro x hx
  unfold escChar at hx
  split_ifs at hx with h1 h2 h3 h4 h5 h6 h7 h8 h9
  · simp only [List.mem_cons, List.not_mem_nil, or_false] at hx
    rcases hx with rfl | rfl <;> decide
  · simp only [List.mem_cons, List.not_mem_nil, or_false] at hx
    rcases hx with rfl | rfl <;> decide
  · simp only [List.mem_cons, List.not_mem_nil, or_false] at hx
    rcases hx with rfl | rfl <;> decide
  · simp only [List.mem_cons, List.not_mem_nil, or_false] at hx
    rcases hx with rfl | rfl <;> decide
  · simp only [List.mem_cons, List.not_mem_nil, or_false] at hx
    rcases hx with rfl | rfl <;> decide
  · simp only [List.mem_cons, List.not_mem_nil, or_false] at hx
    rcases hx with rfl | rfl <;> decide
  · simp only [List.mem_cons, List.not_mem_nil, or_false] at hx
    rcases hx with rfl | rfl <;> decide
  · simp only [List.mem_singleton] at hx
    subst hx
    exact h8
  · simp only [List.mem_cons] at hx
    rcases hx with rfl | rfl | h
    · decide
    · decide
    · exact hex4_range _ x h
  · simp only [List.mem_append, List.mem_cons] at hx
    rcases hx with (rfl | rfl | h) | (rfl | rfl | h)
    · decide
    · decide
    · exact hex4_range _ x h
    · decide
    · decide
    · exact hex4_range _ x h

theorem escList_range : (l : List Char) → ∀ c ∈ escList l, 32 ≤ c.toNat ∧ c.toNat ≤ 126
  | [] => by simp [escList]
  | x :: xs => by
      intro c hc
      simp only [escList, List.mem_append] at hc
      rcases hc with h | h
      · exact escChar_range x c h
      · exact escList_range xs c h

theorem encode_range (s : String) :
    ∀ c ∈ py_encode_basestring_ascii s, 32 ≤ c.toNat ∧ c.toNat ≤ 126 := by
  intro c hc
  simp only [py_encode_basestring_ascii, List.mem_cons, List.mem_append,
    List.mem_singleton] at hc
  rcases hc with rfl | h | rfl | h
  · decide
  · exact escList_range _ c h
  · decide
  · simp at h

theorem digit_range :
    ∀ m, m < 10 → 32 ≤ (Char.ofNat (48 + m)).toNat ∧ (Char.ofNat (48 + m)).toNat ≤ 126 := by
  decide

theorem natDecimalAux_range :
    ∀ fuel n, ∀ c ∈ natDecimalAux fuel n, 32 ≤ c.toNat ∧ c.toNat ≤ 126
  | 0, n => by simp [natDecimalAux]
  | fuel + 1, n => by
      intro c hc
      simp only [natDecimalAux] at hc
      split at hc
      · simp at hc
      · simp only [List.mem_append, List.mem_singleton] at hc
        rcases hc with h | h
        · exact natDecimalAux_range fuel (n / 10) c h
        · subst h
          exact digit_range _ (Nat.mod_lt _ (by omega))

theorem natDecimal_range (n : Nat) : ∀ c ∈ natDecimal n, 32 ≤ c.toNat ∧ c.toNat ≤ 126 := by
  intro c hc
  unfold natDecimal at hc
  split at hc
  · simp only [List.mem_singleton] at hc
    subst hc
    decide
  · exact natDecimalAux_range n n c hc

theorem intDecimal_range (n : Int) : ∀ c ∈ intDecimal n, 32 ≤ c.toNat ∧ c.toNat ≤ 126 := by
  intro c hc
  unfold intDecimal at hc
  split at hc
  · simp only [List.mem_cons] at hc
    rcases hc with rfl | h
    · decide
    · exact natDecimal_range _ c h
  · exact natDecimal_range _ c hc

mutual
theorem dumps_range : (j : Json) → ∀ c ∈ dumps j, 32 ≤ c.toNat ∧ c.toNat ≤ 126
  | .jnull => by decide
  | .jbool true => by decide
  | .jbool false => by decide
  | .jint n => intDecimal_range n
  | .jstr s => encode_range s
  | .jarr items => by
      intro c hc
      simp only [dumps, List.mem_cons, List.mem_append, List.mem_singleton] at hc
      rcases hc with rfl | h | rfl | h
      · decide
      · exact dumpsItems_range items c h
      · decide
      · simp at h
  | .jobj entries => by
      intro c hc
      simp only [dumps, List.mem_append] at hc
      have hb : ∀ x ∈ ("\x7b".toList : List Char), 32 ≤ x.toNat ∧ x.toNat ≤ 126 := by decide
      have hd : ∀ x ∈ ("\x7d".toList : List Char), 32 ≤ x.toNat ∧ x.toNat ≤ 126 := by decide
      rcases hc with (h | h) | h
      · exact hb c h
      · exact dumpsEntries_range entries c h
      · exact hd c h
theorem dumpsItems_range : (items : JsonItems) → ∀ c ∈ dumpsItems items, 32 ≤ c.toNat ∧ c.toNat ≤ 126
  | .nil => by simp [dumpsItems]
  | .cons h .nil => by
      intro c hc
      exact dumps_range h c (by simpa [dumpsItems] using hc)
  | .cons h (.cons h' t) => by
      intro c hc
      simp only [dumpsItems, List.mem_append, List.mem_cons] at hc
      rcases hc with h1 | rfl | rfl | h1
      · exact dumps_range h c h1
      · decide
      · decide
      · exact dumpsItems_range (.cons h' t) c h1
theorem dumpsEntries_range :
    (entries : JsonEntries) → ∀ c ∈ dumpsEntries entries, 32 ≤ c.toNat ∧ c.toNat ≤ 126
  | .nil => by simp [dumpsEntries]
  | .cons k v .nil => by
      intro c hc
      simp only [dumpsEntries, List.mem_append, List.mem_cons] at hc
      rcases hc with h1 | rfl | rfl | h1
      · exact encode_range k c h1
      · decide
      · decide
      · exact dumps_range v c h1
  | .cons k v (.cons k' v' t) => by
      intro c hc
      simp only [dumpsEntries, List.mem_append, List.mem_cons] at hc
      rcases hc with (h1 | rfl | rfl | h1) | rfl | rfl | h1
      · exact encode_range k c h1
      · decide
      · decide
      · exact dumps_range v c h1
      · decide
      · decide
      · exact dumpsEntries_range (.cons k' v' t) c h1
end

/-! ### The bridge's `LiveCaptureState` and its event handlers (C7, C8)

Fields of `LiveCaptureState` that the modelled handlers never touch
(`warnings`, `samples`, `comments`, `gifts` — append-only logs) are
omitted; `add_sample`'s returned record is modelled directly.  Event
fields arrive as untyped `PyVal`s exactly as the handlers receive them
through `getattr`, and are converted with `to_int`; an exception raised
by a conversion aborts the handler before any assignment, leaving the
state unchanged (all conversions in the source precede all
assignments). -/

structure LiveCaptureState where
  username : String
  room_id : Option String
  title : Option String
  status_code : Int
  is_live : Bool
  current_viewers : Int
  current_likes : Int
  current_enters : Int

/-- `LiveCaptureState.__init__(username)`. -/
def LiveCaptureState.init (username : String) : LiveCaptureState :=
  { username := username
    room_id := none
    title := none
    status_code := 0
    is_live := false
    current_viewers := 0
    current_likes := 0
    current_enters := 0 }

/-- `on_connect`: mark live, status 1, adopt a non-blank room id. -/
def on_connect (s : LiveCaptureState) (room_id_field : String) : LiveCaptureState :=
  { s with
    is_live := true
    status_code := 1
    room_id := if pystrip room_id_field = "" then s.room_id else some (pystrip room_id_field) }

/-- `on_disconnect`: a connected session moves to status 2. -/
def on_disconnect (s : LiveCaptureState) : LiveCaptureState :=
  if s.status_code = 1 then { s with status_code := 2 } else s

/-- `on_room_user_seq`: convert `m_total`, `total_user`, `m_popularity`
with `to_int(_, 0)`; positive viewers overwrite, positive enters and
likes are folded in with `max`. -/
def on_room_user_seq (pf : String → Option ℚ) (s : LiveCaptureState)
    (m_total total_user m_popularity : PyVal) : LiveCaptureState :=
  match to_int pf m_total 0, to_int pf total_user 0, to_int pf m_popularity 0 with
  | .ok viewers, .ok enters, .ok likes =>
      { s with
        current_viewers := if 0 < viewers then viewers else s.current_viewers
        current_enters := if 0 < enters then max s.current_enters enters else s.current_enters
        current_likes := if 0 < likes then max s.current_likes likes else s.current_likes }
  | _, _, _ => s

/-- `on_like`: a positive running total is folded in with `max`. -/
def on_like (pf : String → Option ℚ) (s : LiveCaptureState) (total : PyVal) :
    LiveCaptureState :=
  match to_int pf total 0 with
  | .error _ => s
  | .ok total_likes =>
      if 0 < total_likes then { s with current_likes := max s.current_likes total_likes }
      else s

/-- The `room_info` update at the end of `bootstrap_client`: title, then
viewers, likes and enters, each folded in with `max` against the parsed
(already clamped-at-0) value.  The assignments are sequential in the
source, so an exception partway leaves the earlier assignments
committed. -/
def bootstrap_room_info_update (pf : String → Option ℚ) (s : LiveCaptureState)
    (room_info : PyVal) : LiveCaptureState :=
  let s := { s with title := find_first_string titleKeys room_info }
  match parse_current_viewers_from_room_info pf room_info with
  | .error _ => s
  | .ok v =>
      let s := { s with current_viewers := max s.current_viewers v }
      match find_max_int pf likeKeys room_info with
      | .error _ => s
      | .ok l =>
          let s := { s with current_likes := max s.current_likes l }
          match parse_total_enters_from_room_info pf room_info with
          | .error _ => s
          | .ok en => { s with current_enters := max s.current_enters en }

/-- The events of the bridge that touch the counters of
`LiveCaptureState` (plus connect/disconnect, which touch only the
status fields). -/
inductive BridgeEvent where
  | connect (room_id_field : String)
  | disconnect
  | roomUserSeq (m_total total_user m_popularity : PyVal)
  | like (total : PyVal)
  | roomInfo (room_info : PyVal)

/-- Dispatch of one event to its handler. -/
def bridge_step (pf : String → Option ℚ) (s : LiveCaptureState) :
    BridgeEvent → LiveCaptureState
  | .connect rid => on_connect s rid
  | .disconnect => on_disconnect s
  | .roomUserSeq a b c => on_room_user_seq pf s a b c
  | .like t => on_like pf s t
  | .roomInfo ri => bootstrap_room_info_update pf s ri

/-- A sequence of events handled in order. -/
def bridge_run (pf : String → Option ℚ) (s : LiveCaptureState) :
    List BridgeEvent → LiveCaptureState
  | [] => s
  | e :: es => bridge_run pf (bridge_step pf s e) es

/-- `None`-or-string, as serialized into the snapshot. -/
def jOptStr : Option String → Json
  | none => .jnull
  | some s => .jstr s

/-- `LiveCaptureState.snapshot`: the flat status record.  `now` stands
for `now_iso()` (wall-clock time, passed in as a parameter);
`int(...)` applied to the integer counters is the identity. -/
def LiveCaptureState.snapshot (s : LiveCaptureState) (now : String) : Json :=
  .jobj (.cons "username" (.jstr s.username)
    (.cons "isLive" (.jbool s.is_live)
      (.cons "statusCode" (.jint s.status_code)
        (.cons "viewerCount" (.jint (max 0 s.current_viewers))
          (.cons "likeCount" (.jint (max 0 s.current_likes))
            (.cons "enterCount" (.jint (max 0 s.current_enters))
              (.cons "roomId" (jOptStr s.room_id)
                (.cons "title" (jOptStr s.title)
                  (.cons "fetchedAt" (.jstr now) .nil)))))))))

/-- The record built and appended by `LiveCaptureState.add_sample`. -/
def LiveCaptureState.add_sample (s : LiveCaptureState) (now : String) : Json :=
  .jobj (.cons "capturedAt" (.jstr now)
    (.cons "viewerCount" (.jint (max 0 s.current_viewers))
      (.cons "likeCount" (.jint (max 0 s.current_likes))
        (.cons "enterCount" (.jint (max 0 s.current_enters)) .nil))))

/-! ### Monotonicity of the counters (C7) -/

theorem on_room_user_seq_likes_mono (pf : String → Option ℚ) (s : LiveCaptureState)
    (a b c : PyVal) : s.current_likes ≤ (on_room_user_seq pf s a b c).current_likes := by
  unfold on_room_user_seq
  split <;> (try simp) <;> (try split) <;> (try simp) <;> omega

theorem on_room_user_seq_enters_mono (pf : String → Option ℚ) (s : LiveCaptureState)
    (a b c : PyVal) : s.current_enters ≤ (on_room_user_seq pf s a b c).current_enters := by
  unfold on_room_user_seq
  split <;> (try simp) <;> (try split) <;> (try simp) <;> omega

theorem on_room_user_seq_viewers_pos (pf : String → Option ℚ) (s : LiveCaptureState)
    (a b c : PyVal) (h : 0 < s.current_viewers) :
    0 < (on_room_user_seq pf s a b c).current_viewers := by
  unfold on_room_user_seq
  split <;> (try simp) <;> (try split) <;> (try simp) <;> omega

theorem on_like_likes_mono (pf : String → Option ℚ) (s : LiveCaptureState) (t : PyVal) :
    s.current_likes ≤ (on_like pf s t).current_likes := by
  unfold on_like
  split <;> (try simp) <;> (try split) <;> (try simp) <;> omega

theorem bootstrap_likes_mono (pf : String → Option ℚ) (s : LiveCaptureState) (ri : PyVal) :
    s.current_likes ≤ (bootstrap_room_info_update pf s ri).current_likes := by
  unfold bootstrap_room_info_update
  dsimp only
  repeat' split
  all_goals (try dsimp only)
  all_goals omega

theorem bootstrap_enters_mono (pf : String → Option ℚ) (s : LiveCaptureState) (ri : PyVal) :
    s.current_enters ≤ (bootstrap_room_info_update pf s ri).current_enters := by
  unfold bootstrap_room_info_update
  dsimp only
  repeat' split
  all_goals (try dsimp only)
  all_goals omega

theorem bootstrap_viewers_pos (pf : String → Option ℚ) (s : LiveCaptureState) (ri : PyVal)
    (h : 0 < s.current_viewers) : 0 < (bootstrap_room_info_update pf s ri).current_viewers := by
  unfold bootstrap_room_info_update
  dsimp only
  repeat' split
  all_goals (try dsimp only)
  all_goals omega

theorem bridge_step_likes_mono (pf : String → Option ℚ) (s : LiveCaptureState)
    (e : BridgeEvent) : s.current_likes ≤ (bridge_step pf s e).current_likes := by
  cases e with
  | connect rid => simp [bridge_step, on_connect]
  | disconnect =>
      simp only [bridge_step, on_disconnect]
      split <;> simp
  | roomUserSeq a b c => exact on_room_user_seq_likes_mono pf s a b c
  | like t => exact on_like_likes_mono pf s t
  | roomInfo ri => exact bootstrap_likes_mono pf s ri

theorem bridge_step_enters_mono (pf : String → Option ℚ) (s : LiveCaptureState)
    (e : BridgeEvent) : s.current_enters ≤ (bridge_step pf s e).current_enters := by
  cases e with
  | connect rid => simp [bridge_step, on_connect]
  | disconnect =>
      simp only [bridge_step, on_disconnect]
      split <;> simp
  | roomUserSeq a b c => exact on_room_user_seq_enters_mono pf s a b c
  | like t =>
      simp only [bridge_step, on_like]
      split <;> (try simp) <;> (try split) <;> (try simp) <;> omega
  | roomInfo ri => exact bootstrap_enters_mono pf s ri

theorem bridge_step_viewers_pos (pf : String → Option ℚ) (s : LiveCaptureState)
    (e : BridgeEvent) (h : 0 < s.current_viewers) :
    0 < (bridge_step pf s e).current_viewers := by
  cases e with
  | connect rid => simpa [bridge_step, on_connect] using h
  | disconnect =>
      simp only [bridge_step, on_disconnect]
      split <;> simpa using h
  | roomUserSeq a b c => exact on_room_user_seq_viewers_pos pf s a b c h
  | like t =>
      simp only [bridge_step, on_like]
      split <;> (try simp) <;> (try split) <;> (try simp) <;> omega
  | roomInfo ri => exact bootstrap_viewers_pos pf s ri h

theorem bridge_run_likes_mono (pf : String → Option ℚ) :
    ∀ (es : List BridgeEvent) (s : LiveCaptureState),
      s.current_likes ≤ (bridge_run pf s es).current_likes
  | [], _ => le_refl _
  | e :: es, s =>
      le_trans (bridge_step_likes_mono pf s e) (bridge_run_likes_mono pf es (bridge_step pf s e))

theorem bridge_run_enters_mono (pf : String → Option ℚ) :
    ∀ (es : List BridgeEvent) (s : LiveCaptureState),
      s.current_enters ≤ (bridge_run pf s es).current_enters
  | [], _ => le_refl _
  | e :: es, s =>
      le_trans (bridge_step_enters_mono pf s e) (bridge_run_enters_mono pf es (bridge_step pf s e))

theorem bridge_run_viewers_pos (pf : String → Option ℚ) :
    ∀ (es : List BridgeEvent) (s : LiveCaptureState),
      0 < s.current_viewers → 0 < (bridge_run pf s es).current_viewers
  | [], _, h => h
  | e :: es, s, h =>
      bridge_run_viewers_pos pf es (bridge_step pf s e) (bridge_step_viewers_pos pf s e h)

/-! ### `Pianothon.py`: shared state between the two processes (C2, C5)

The `__main__` block creates two `multiprocessing.Manager` values shared
between the rendering process (`mainloop`) and the event-handling
process: `totalcoins = manager.Value('i', 0)` and
`thankstr = manager.Value("c", "")`.  The gift handler mutates both; the
rendering loop reads both (`totalcoins.value` for the pie/threshold
computation, `thankstr.value` via `updatethank` and the `thanklist`
append). -/

namespace Pianothon

/-- The pair of manager-shared mutable values. -/
structure SharedState where
  totalcoins : Int
  thankstr : String
deriving DecidableEq

/-- The fields of a gift event that `Pianothon.py`'s `on_gift` reads;
`diamond_count` and `count` are the values of the `int(...)` casts in
the handler. -/
structure GiftEvent where
  streakable : Bool
  streaking : Bool
  diamond_count : Int
  count : Int
  nickname : String

/-- The module-level `thankvalue = 1` threshold. -/
def thankvalue : Int := 1

/-- `giftreceived(coins)`: `totalcoins.value += coins`. -/
def giftreceived (s : SharedState) (coins : Int) : SharedState :=
  { s with totalcoins := s.totalcoins + coins }

/-- The `on_gift` handler of `Pianothon.py`: a streakable gift whose
streak has ended contributes `diamond_count * count` coins, a
non-streakable gift contributes `diamond_count`, and a streakable gift
that is still streaking is ignored; whenever the contribution reaches
`thankvalue` the shared thank-you string is overwritten. -/
def on_gift (s : SharedState) (e : GiftEvent) : SharedState :=
  if e.streakable && !e.streaking then
    let s := giftreceived s (e.diamond_count * e.count)
    if thankvalue ≤ e.diamond_count * e.count then
      { s with thankstr := "Thanks to " ++ e.nickname }
    else s
  else if !e.streakable then
    let s := giftreceived s e.diamond_count
    if thankvalue ≤ e.diamond_count then
      { s with thankstr := "Thanks to " ++ e.nickname }
    else s
  else s

/-- `updatethank()` in `mainloop`: the rendering process's read of the
shared thank-you string (`return thankstr.value`). -/
def updatethank (s : SharedState) : String :=
  s.thankstr

/-- The coin contribution of one gift event, as the amended claim
states it (specification-side definition). -/
def coinDelta (e : GiftEvent) : Int :=
  if e.streakable && !e.streaking then e.diamond_count * e.count
  else if !e.streakable then e.diamond_count
  else 0

end Pianothon

/-! ### Effect footprint of the scripts (C6)

Every point where either script hands data to the outside world is
listed here as an `Effect`.  The constructors cover everything the
sources do (standard-output lines, drawing to the pygame display,
reading environment variables, reading font files) plus the one kind of
effect the claim denies — writing to a file, database or other
persistent store — which no line of either script performs. -/

inductive Effect where
  | stdoutLine (line : List Char)
  | displayDraw
  | envRead (name : String)
  | fileRead (path : String)
  | fileWrite (path : String)

/-- Writing to a file, database or other persistent store. -/
def isStoreWrite : Effect → Bool
  | .fileWrite _ => true
  | _ => false

/-- `emit_line(payload)`: one flushed line on standard output. -/
def emit_line_effects (payload : Json) : List Effect :=
  [.stdoutLine (emit_line payload)]

/-- The final `print(json.dumps(payload, ensure_ascii=True))` of the
bridge's `main` in check/track mode. -/
def bridge_payload_print_effects (payload : Json) : List Effect :=
  [.stdoutLine (dumps payload ++ ['\n'])]

/-- `apply_optional_session`: the two `os.getenv` reads. -/
def apply_optional_session_effects : List Effect :=
  [.envRead "TIKTOK_SESSION_ID", .envRead "TIKTOK_TT_TARGET_IDC"]

/-- `mainloop`'s set-up: the four `pygame.font.Font` file loads and the
`pygame.display.set_mode` window creation. -/
def mainloop_setup_effects : List Effect :=
  [.fileRead "RobotoMono-Regular.ttf", .fileRead "freesansbold.ttf",
   .fileRead "freesansbold.ttf", .fileRead "freesansbold.ttf", .displayDraw]

/-- One iteration of `mainloop`: the possible quarter-threshold `print`s
followed by the drawing calls and `pygame.display.update()`. -/
def mainloop_frame_effects (msgs : List (List Char)) : List Effect :=
  msgs.map Effect.stdoutLine ++ [.displayDraw]

/-- The `print`s of `giftreceived` and the `__main__` `on_gift` handler
(coin totals and thank-you strings). -/
def gift_handler_effects (msgs : List (List Char)) : List Effect :=
  msgs.map Effect.stdoutLine

/-! ### The claims -/

/-- A float-parse model under which no string parses
(used for concrete instantiations). -/
def pf0 : String → Option ℚ := fun _ => none

/-- A float-parse model mapping `"12.5"` to `12.5` and nothing else
(used for concrete instantiations). -/
def pf1 : String → Option ℚ := fun s => if s = "12.5" then some (mkRat 25 2) else none

/-- A concrete `room_info`-shaped structure with a non-finite float bound
to a scanned key. -/
def c1BadData : PyVal :=
  .vDict (.cons "viewer_count" (.vFloat .nonfinite) .nil)

/-- C1, counterexample: on the concrete structure
`{"viewer_count": float("inf")}` with key set `{"viewer_count"}`,
`find_max_int` does not return the claimed maximum — it raises
(`int()` on a non-finite float raises `OverflowError`), so the claim's
universally quantified return statement is false at this input. -/
theorem find_max_int_key_scan_counterexample :
    find_max_int pf0 ["viewer_count"] c1BadData = .error () := rfl

/-- C1 (amended): for every finite nested structure and key set, provided
no value bound to a scanned key is a non-finite float, `find_max_int`
returns the maximum of `0` and of `to_int(v, 0)` over every value `v`
bound to a key in `keys` at any nesting depth (in particular `0` when no
such key occurs anywhere, as `maxOverKeyVals` of the empty list is `0`). -/
theorem find_max_int_key_scan_spec (pf : String → Option ℚ) (keys : List String)
    (data : PyVal) (h : ∀ v ∈ keyBoundValues keys data, isBadFloat v = false) :
    find_max_int pf keys data = .ok (maxOverKeyVals pf (keyBoundValues keys data)) :=
  fmiValSpec pf keys data h

/-- A concrete nested structure: an integer counter, a string counter
nested one level down, and an unrelated list. -/
def c1Data : PyVal :=
  .vDict (.cons "viewer_count" (.vInt 7)
    (.cons "nested" (.vDict (.cons "viewer_count" (.vStr "12.5") .nil))
      (.cons "other" (.vList (.cons (.vInt 99) .nil)) .nil)))

/-- C1, witness: on `c1Data` the hypothesis holds and the scan returns
`12 = max(0, 7, int(float("12.5")))`. -/
theorem find_max_int_key_scan_spec_witness :
    (∀ v ∈ keyBoundValues ["viewer_count"] c1Data, isBadFloat v = false) ∧
    find_max_int pf1 ["viewer_count"] c1Data = .ok 12 := by
  refine ⟨by decide, ?_⟩
  rw [find_max_int_key_scan_spec pf1 ["viewer_count"] c1Data (by decide)]
  rfl

/-- C2: the aggregated coin total of `Pianothon.py` increases by
`diamond_count * count` for a streakable gift whose streak has ended,
by `diamond_count` for a non-streakable gift, and is unchanged for a
gift event that is part of an in-progress streak. -/
theorem on_gift_coin_total (s : Pianothon.SharedState) (e : Pianothon.GiftEvent) :
    (e.streakable = true → e.streaking = false →
      (Pianothon.on_gift s e).totalcoins = s.totalcoins + e.diamond_count * e.count)
  ∧ (e.streakable = false →
      (Pianothon.on_gift s e).totalcoins = s.totalcoins + e.diamond_count)
  ∧ (e.streakable = true → e.streaking = true →
      (Pianothon.on_gift s e).totalcoins = s.totalcoins) := by
  refine ⟨?_, ?_, ?_⟩
  · intro h1 h2
    simp only [Pianothon.on_gift, Pianothon.giftreceived]
    repeat' split
    all_goals simp_all
  · intro h1
    simp only [Pianothon.on_gift, Pianothon.giftreceived]
    repeat' split
    all_goals simp_all
  · intro h1 h2
    simp only [Pianothon.on_gift, Pianothon.giftreceived]
    repeat' split
    all_goals simp_all

/-- C2, witness: the three cases at concrete gifts over the starting
total `10`. -/
theorem on_gift_coin_total_witness :
    (Pianothon.on_gift ⟨10, ""⟩ ⟨true, false, 5, 3, "A"⟩).totalcoins = 10 + 5 * 3
  ∧ (Pianothon.on_gift ⟨10, ""⟩ ⟨false, false, 5, 3, "A"⟩).totalcoins = 10 + 5
  ∧ (Pianothon.on_gift ⟨10, ""⟩ ⟨true, true, 5, 3, "A"⟩).totalcoins = 10 :=
  ⟨(on_gift_coin_total ⟨10, ""⟩ ⟨true, false, 5, 3, "A"⟩).1 rfl rfl,
   (on_gift_coin_total ⟨10, ""⟩ ⟨false, false, 5, 3, "A"⟩).2.1 rfl,
   (on_gift_coin_total ⟨10, ""⟩ ⟨true, true, 5, 3, "A"⟩).2.2 rfl rfl⟩

/-- A list wrapping a dict that binds a non-finite float to a like key. -/
def c3BadData : PyVal :=
  .vList (.cons (.vDict (.cons "like_count" (.vFloat .nonfinite) .nil)) .nil)

/-- C3, counterexample: `find_max_int` does raise on a finite acyclic
structure — `[{"like_count": float("nan")}]` with the bridge's like-key
set — because `to_int`'s float branch has no exception handler. -/
theorem find_max_int_raises_counterexample :
    find_max_int pf0 likeKeys c3BadData = .error () := rfl

/-- A structure on which both extractors run without raising. -/
def c3Data : PyVal :=
  .vDict (.cons "title" (.vStr "  live!  ")
    (.cons "stats" (.vDict (.cons "extra" .vNone .nil)) .nil))

/-- C3 (amended): both extractors terminate on every finite acyclic
structure (they are total functions of the embedding);
`find_first_string` never raises and never returns the empty string,
and `find_max_int` never raises provided no value bound to a scanned
key is a non-finite float. -/
theorem defensive_extractors_total (pf : String → Option ℚ) (keys : List String)
    (data : PyVal) (h : ∀ v ∈ keyBoundValues keys data, isBadFloat v = false) :
    (∃ n : Int, find_max_int pf keys data = .ok n)
  ∧ find_first_string keys data ≠ some "" :=
  ⟨⟨maxOverKeyVals pf (keyBoundValues keys data), fmiValSpec pf keys data h⟩,
   ffs_ne_empty keys data⟩

/-- C3, witness: the amended statement at a concrete structure. -/
theorem defensive_extractors_total_witness :
    (∃ n : Int, find_max_int pf0 titleKeys c3Data = .ok n)
  ∧ find_first_string titleKeys c3Data ≠ some "" :=
  defensive_extractors_total pf0 titleKeys c3Data (by decide)

/-- C4: every status record the bridge emits through `emit_line` is the
ASCII-only serialization of the payload followed by exactly one newline:
every character of the serialization is printable ASCII (`0x20`–`0x7e`),
so in particular none is a newline, and the printed output is one line.
(The `flush=True` of the source is modelled as the immediate handing of
this line to standard output.) -/
theorem emit_line_single_ascii_line (payload : Json) :
    emit_line payload = dumps payload ++ ['\n']
  ∧ (∀ c ∈ dumps payload, 32 ≤ c.toNat ∧ c.toNat ≤ 126)
  ∧ (∀ c ∈ dumps payload, c ≠ '\n') := by
  refine ⟨rfl, dumps_range payload, fun c hc hn => ?_⟩
  have hr := dumps_range payload c hc
  subst hn
  exact absurd hr (by decide)

/-- A concrete meta record. -/
def jMeta : Json := .jobj (.cons "type" (.jstr "meta") (.cons "isLive" (.jbool true) .nil))

/-- C4, witness: the concrete meta record, with the character `'t'` of
its serialization checked against both character properties. -/
theorem emit_line_single_ascii_line_witness :
    emit_line jMeta = dumps jMeta ++ ['\n']
  ∧ (32 ≤ 't'.toNat ∧ 't'.toNat ≤ 126)
  ∧ 't' ≠ '\n' :=
  ⟨(emit_line_single_ascii_line jMeta).1,
   (emit_line_single_ascii_line jMeta).2.1 't' (by decide),
   (emit_line_single_ascii_line jMeta).2.2 't' (by decide)⟩

/-- C5, counterexample: the shared thank-you string is a second shared
mutable value: the rendering process's `updatethank` read distinguishes
two shared states that agree on the coin counter, and the event
process's gift handler writes that string (here a non-streakable 5-coin
gift from `X` overwrites it), so the coin counter is not the only
shared mutable state. -/
theorem shared_state_not_single_counter :
    Pianothon.updatethank ⟨0, "a"⟩ ≠ Pianothon.updatethank ⟨0, "b"⟩
  ∧ (Pianothon.on_gift ⟨0, ""⟩ ⟨false, false, 5, 1, "X"⟩).thankstr = "Thanks to X" :=
  ⟨by decide, rfl⟩

/-- C5 (amended): the shared mutable state between the rendering process
and the event-handling process consists of exactly the two manager
values — the integer coin counter and the thank-you string: the gift
handler adds the gift's coin contribution to the counter and either
leaves the string alone or overwrites it with the thank-you message, and
the rendering process reads the string via `updatethank`. -/
theorem shared_state_two_values (s : Pianothon.SharedState) (e : Pianothon.GiftEvent) :
    (Pianothon.on_gift s e).totalcoins = s.totalcoins + Pianothon.coinDelta e
  ∧ ((Pianothon.on_gift s e).thankstr = s.thankstr ∨
      (Pianothon.on_gift s e).thankstr = "Thanks to " ++ e.nickname)
  ∧ Pianothon.updatethank s = s.thankstr := by
  refine ⟨?_, ?_, rfl⟩
  · simp only [Pianothon.on_gift, Pianothon.giftreceived, Pianothon.coinDelta]
    repeat' split
    all_goals simp
  · simp only [Pianothon.on_gift, Pianothon.giftreceived]
    repeat' split
    all_goals simp

/-- C6: no operation of either script writes to persistent storage:
every effect any emission point produces is a standard-output line, a
drawing call, an environment read or a font-file read — never a store
write. -/
theorem no_persistent_store_writes :
    (∀ p : Json, ∀ e ∈ emit_line_effects p, isStoreWrite e = false)
  ∧ (∀ p : Json, ∀ e ∈ bridge_payload_print_effects p, isStoreWrite e = false)
  ∧ (∀ e ∈ apply_optional_session_effects, isStoreWrite e = false)
  ∧ (∀ e ∈ mainloop_setup_effects, isStoreWrite e = false)
  ∧ (∀ msgs, ∀ e ∈ mainloop_frame_effects msgs, isStoreWrite e = false)
  ∧ (∀ msgs, ∀ e ∈ gift_handler_effects msgs, isStoreWrite e = false) := by
  refine ⟨fun p e he => ?_, fun p e he => ?_, by decide, by decide,
    fun msgs e he => ?_, fun msgs e he => ?_⟩
  · simp only [emit_line_effects, List.mem_singleton] at he
    subst he; rfl
  · simp only [bridge_payload_print_effects, List.mem_singleton] at he
    subst he; rfl
  · simp only [mainloop_frame_effects, List.mem_append, List.mem_map,
      List.mem_singleton] at he
    rcases he with ⟨m, _, rfl⟩ | rfl <;> rfl
  · simp only [gift_handler_effects, List.mem_map] at he
    rcases he with ⟨m, _, rfl⟩
    rfl

/-- A concrete end record. -/
def jEnd : Json :=
  .jobj (.cons "type" (.jstr "end") (.cons "ok" (.jbool true)
    (.cons "error" .jnull .nil)))

/-- C6, witness: the effect of emitting a concrete end record is not a
store write. -/
theorem no_persistent_store_writes_witness :
    isStoreWrite (Effect.stdoutLine (emit_line jEnd)) = false :=
  no_persistent_store_writes.1 jEnd (Effect.stdoutLine (emit_line jEnd))
    (by simp [emit_line_effects])

/-- C7: over every sequence of events handled by the bridge,
`current_likes` and `current_enters` never decrease (every update folds
the new value in with `max`), positive `current_viewers` is never lost,
and a `RoomUserSeqEvent` whose viewer field converts to `0` leaves
`current_viewers` exactly unchanged — it never overwrites a previously
recorded positive value. -/
theorem bridge_counters_monotone (pf : String → Option ℚ) (s : LiveCaptureState)
    (es : List BridgeEvent) :
    s.current_likes ≤ (bridge_run pf s es).current_likes
  ∧ s.current_enters ≤ (bridge_run pf s es).current_enters
  ∧ (0 < s.current_viewers → 0 < (bridge_run pf s es).current_viewers)
  ∧ (∀ a b c : PyVal, to_int pf a 0 = .ok 0 →
      (bridge_step pf s (.roomUserSeq a b c)).current_viewers = s.current_viewers) := by
  refine ⟨bridge_run_likes_mono pf es s, bridge_run_enters_mono pf es s,
    bridge_run_viewers_pos pf es s, fun a b c h => ?_⟩
  simp only [bridge_step, on_room_user_seq, h]
  cases hb : to_int pf b 0 <;> cases hc : to_int pf c 0 <;> simp [hb, hc]

/-- A bridge state whose counters have already advanced. -/
def s7 : LiveCaptureState :=
  { LiveCaptureState.init "demo" with current_viewers := 5, current_likes := 3, current_enters := 4 }

/-- A concrete event sequence: a room-user update, a like total, a
disconnect. -/
def es7 : List BridgeEvent :=
  [.roomUserSeq (.vInt 9) (.vInt 10) (.vInt 11), .like (.vInt 2), .disconnect]

/-- C7, witness: the concrete state and sequence, plus a
`RoomUserSeqEvent` reporting `0` viewers. -/
theorem bridge_counters_monotone_witness :
    (3 : Int) ≤ (bridge_run pf0 s7 es7).current_likes
  ∧ (4 : Int) ≤ (bridge_run pf0 s7 es7).current_enters
  ∧ (0 : Int) < (bridge_run pf0 s7 es7).current_viewers
  ∧ (bridge_step pf0 s7 (.roomUserSeq (.vInt 0) (.vInt 1) (.vInt 1))).current_viewers =
      s7.current_viewers :=
  ⟨(bridge_counters_monotone pf0 s7 es7).1,
   (bridge_counters_monotone pf0 s7 es7).2.1,
   (bridge_counters_monotone pf0 s7 es7).2.2.1 (by decide),
   (bridge_counters_monotone pf0 s7 es7).2.2.2 (.vInt 0) (.vInt 1) (.vInt 1) rfl⟩

/-- C8: every snapshot and every sample record carries
`viewerCount`, `likeCount` and `enterCount` equal to the counter clamped
below at `0` — hence non-negative — whatever values (negative included)
any event sequence has left in the state. -/
theorem snapshot_sample_counts_nonneg (s : LiveCaptureState) (now : String) :
    jlookup (s.snapshot now) "viewerCount" = some (.jint (max 0 s.current_viewers))
  ∧ jlookup (s.snapshot now) "likeCount" = some (.jint (max 0 s.current_likes))
  ∧ jlookup (s.snapshot now) "enterCount" = some (.jint (max 0 s.current_enters))
  ∧ jlookup (s.add_sample now) "viewerCount" = some (.jint (max 0 s.current_viewers))
  ∧ jlookup (s.add_sample now) "likeCount" = some (.jint (max 0 s.current_likes))
  ∧ jlookup (s.add_sample now) "enterCount" = some (.jint (max 0 s.current_enters))
  ∧ 0 ≤ max 0 s.current_viewers
  ∧ 0 ≤ max 0 s.current_likes
  ∧ 0 ≤ max 0 s.current_enters :=
  ⟨rfl, rfl, rfl, rfl, rfl, rfl, le_max_left 0 _, le_max_left 0 _, le_max_left 0 _⟩

/-- C9, counterexample: `to_int` is not total — applied to a non-finite
float (with default `7`) it raises instead of returning `int(value)` or
the default, because the float branch of the source has no `try`. -/
theorem to_int_nonfinite_counterexample :
    to_int pf0 (.vFloat .nonfinite) 7 = .error () := rfl

/-- C9 (amended): `to_int(value, default)` raises exactly on non-finite
floats and otherwise returns `int(value)` for booleans, integers and
finite floats, `int(float(value))` for strings that parse as a finite
number, and the default for non-parsing strings and every non-numeric
type. -/
theorem to_int_branches (pf : String → Option ℚ) (d : Int) :
    (∀ b, to_int pf (.vBool b) d = .ok (if b then 1 else 0))
  ∧ (∀ n, to_int pf (.vInt n) d = .ok n)
  ∧ (∀ q, to_int pf (.vFloat (.finite q)) d = .ok (ratTruncZ q))
  ∧ to_int pf (.vFloat .nonfinite) d = .error ()
  ∧ (∀ s q, pf s = some q → to_int pf (.vStr s) d = .ok (ratTruncZ q))
  ∧ (∀ s, pf s = none → to_int pf (.vStr s) d = .ok d)
  ∧ to_int pf .vNone d = .ok d
  ∧ (∀ es, to_int pf (.vDict es) d = .ok d)
  ∧ (∀ items, to_int pf (.vList items) d = .ok d) := by
  refine ⟨fun b => rfl, fun n => rfl, fun q => rfl, rfl,
    fun s q h => ?_, fun s h => ?_, rfl, fun es => rfl, fun items => rfl⟩
  · simp [to_int, h]
  · simp [to_int, h]

/-- C9, witness: the string branches at the concrete parse model `pf1`:
`"12.5"` parses (`int(float("12.5")) = 12`) and `"zzz"` falls back to
the default `0`. -/
theorem to_int_branches_witness :
    to_int pf1 (.vStr "12.5") 0 = .ok 12 ∧ to_int pf1 (.vStr "zzz") 0 = .ok 0 := by
  constructor
  · have h := (to_int_branches pf1 0).2.2.2.2.1 "12.5" (mkRat 25 2) rfl
    rw [h]
    rfl
  · exact (to_int_branches pf1 0).2.2.2.2.2.1 "zzz" rfl
